import Mathlib

/-!
Verification of the chart configuration normalizer in the `ajayjs` repository.
The repository ships two versions of the wrapper class `_Chart`:
`src/AJAYJS/charts/charts.js` (embedded below with an `ajayjs` prefix) and
`src/charts/charts.js` (embedded with a `charts` prefix).  Functions that are
identical in the two files are embedded once, without a prefix.

JavaScript numbers are modelled as rationals (finite values only; the spec's
claims quantify over finite values).  JavaScript values are modelled by the
JSON-like type `JVal`; `JVal.func` stands for opaque function values, which no
claim inspects.
-/

set_option autoImplicit false

/-- JSON-like JavaScript values: `null`, booleans, (finite) numbers as
rationals, strings, arrays, plain objects (fields kept in insertion order),
and opaque function values. -/
inductive JVal where
  | null
  | bool (b : Bool)
  | num (q : ℚ)
  | str (s : String)
  | arr (elems : List JVal)
  | obj (fields : List (String × JVal))
  | func

/-- Property read `o[k]` on a JavaScript object held as an ordered field list;
`none` models `undefined`.  Keys are unique in objects built by `objUpd`, so
taking the first match agrees with JavaScript. -/
def jGet (fields : List (String × JVal)) (k : String) : Option JVal :=
  (fields.find? (fun p => p.1 == k)).map (fun p => p.2)

/-- Property write `o[k] = v`: replaces the binding in place when the key is
present, else appends it (JavaScript objects preserve insertion order). -/
def objUpd (fields : List (String × JVal)) (k : String) (v : JVal) :
    List (String × JVal) :=
  if fields.any (fun p => p.1 == k) then
    fields.map (fun p => if p.1 == k then (k, v) else p)
  else fields ++ [(k, v)]

/-- Spreading `entries` into an object that already holds `init` (the tail of
an object literal): later entries overwrite earlier bindings in place. -/
def objExtend (init : List (String × JVal)) (entries : List (String × JVal)) :
    List (String × JVal) :=
  entries.foldl (fun acc p => objUpd acc p.1 p.2) init

/-- The value a spread `...entries` leaves at key `k`: the last binding of `k`
in `entries`, if any. -/
def lastLookup (entries : List (String × JVal)) (k : String) : Option JVal :=
  (entries.reverse.find? (fun p => p.1 == k)).map (fun p => p.2)

/-- The nullish-coalescing operator `x ?? d` applied to a possibly-absent
field (`none` models `undefined`). -/
def nullish (v : Option JVal) (d : JVal) : JVal :=
  match v with
  | some JVal.null => d
  | some w => w
  | none => d

/-- The pattern `typeof x === 'number' ? x : d` for a possibly-absent field. -/
def numOr (v : Option JVal) (d : ℚ) : JVal :=
  match v with
  | some (JVal.num q) => JVal.num q
  | _ => JVal.num d

/-- The pattern `typeof x === 'boolean' ? x : d` for a possibly-absent field. -/
def boolOr (v : Option JVal) (d : Bool) : JVal :=
  match v with
  | some (JVal.bool b) => JVal.bool b
  | _ => JVal.bool d

/-- Numeric view of a value (`typeof v === 'number'`). -/
def asNum : JVal → Option ℚ
  | JVal.num q => some q
  | _ => none

/-- The ten-colour light-theme table (identical in both files). -/
def lightPalette : List String :=
  ["#e63946", "#f1faee", "#a8dadc", "#457b9d", "#1d3557",
   "#ffb703", "#fb8500", "#023047", "#8ecae6", "#219ebc"]

/-- The ten-colour dark-theme table (identical in both files). -/
def darkPalette : List String :=
  ["#ff4d4d", "#ffaa4d", "#4dff88", "#4d94ff", "#c44dff",
   "#ff4dc4", "#4dffef", "#ffd24d", "#8aff4d", "#ff8f4d"]

/-- The table `_generatePalette` cycles for the given theme. -/
def paletteBase (theme : String) : List String :=
  if theme == "light" then lightPalette else darkPalette

/-- `_generatePalette(n, theme)` (identical in both files): `n` colours drawn
from the theme's ten-colour table by `index mod length`. -/
def generatePalette (n : Nat) (theme : String) : List String :=
  (List.range n).map (fun i =>
    (paletteBase theme).getD (i % (paletteBase theme).length) "")

/-- A `DatasetConfig` as the wrapper reads it: every field either normalizer
inspects, `none` when absent (`undefined`), plus the caller-supplied
passthrough bag `additionalProps` as an ordered field list (`ds.additionalProps
?? ` an empty object; a non-object bag is outside the claims' scope and is
modelled as empty). -/
structure DS where
  label : Option JVal := none
  data : Option JVal := none
  backgroundColor : Option JVal := none
  borderColor : Option JVal := none
  borderWidth : Option JVal := none
  pointRadius : Option JVal := none
  fill : Option JVal := none
  tension : Option JVal := none
  hoverOffset : Option JVal := none
  radius : Option JVal := none
  bins : Option JVal := none
  binEdges : Option JVal := none
  key : Option JVal := none
  groups : Option JVal := none
  spacing : Option JVal := none
  fontColor : Option JVal := none
  padding : Option JVal := none
  itemRadius : Option JVal := none
  outlierColor : Option JVal := none
  itemStyle : Option JVal := none
  risingColor : Option JVal := none
  fallingColor : Option JVal := none
  neutralColor : Option JVal := none
  circumference : Option JVal := none
  rotation : Option JVal := none
  cutout : Option JVal := none
  additionalProps : List (String × JVal) := []

/-- The palette chosen by `_buildAndRender` (identical in both files): a
non-empty explicit caller palette is used as-is, otherwise one is generated
from the theme table. -/
def selectPalette (explicitPalette : List String) (nDatasets : Nat)
    (theme : String) : List String :=
  if explicitPalette.length ≠ 0 then explicitPalette
  else generatePalette nDatasets theme

/-- The colour handed to dataset `i` by `src/AJAYJS/charts/charts.js`:
`palette[i % palette.length]` (on an empty palette the index is `NaN` and the
read is `undefined`, modelled `none`). -/
def ajayjsDatasetColor (palette : List String) (i : Nat) : Option String :=
  if palette.length = 0 then none else palette[i % palette.length]?

/-- The colour handed to dataset `i` by `src/charts/charts.js`: `palette[i]`,
which is `undefined` once `i` is past the end of the palette. -/
def chartsDatasetColor (palette : List String) (i : Nat) : Option String :=
  palette[i]?

/-- ASCII lowering of one character, as `toLowerCase` acts on the ASCII
type tags the wrapper compares against. -/
def lowerChar (c : Char) : Char :=
  if 'A' ≤ c ∧ c ≤ 'Z' then Char.ofNat (c.toNat + 32) else c

/-- `s.toLowerCase()` for the ASCII type tags (non-ASCII letters never match
any `case` label, so lowering them is irrelevant to the `switch`). -/
def lowerStr (s : String) : String :=
  String.mk (s.data.map lowerChar)

/-- The type-alias `switch` of `_buildAndRender` in
`src/AJAYJS/charts/charts.js` (both `candlestick` and `ohlc` map to
`candlestick`; unmatched tags pass through unchanged). -/
def ajayjsEffectiveType (requested : String) : String :=
  let lowerType := lowerStr requested
  if lowerType == "area" then "line"
  else if lowerType == "heatmap" then "matrix"
  else if lowerType == "treemap" then "treemap"
  else if lowerType == "candlestick" then "candlestick"
  else if lowerType == "ohlc" then "candlestick"
  else if lowerType == "gauge" then "doughnut"
  else if lowerType == "funnel" then "funnel"
  else if lowerType == "boxplot" then "boxplot"
  else if lowerType == "histogram" then "bar"
  else requested

/-- The extension-backed type tags whose registration
`src/AJAYJS/charts/charts.js` re-checks at render time. -/
def extensionTypes : List String :=
  ["matrix", "treemap", "candlestick", "funnel", "boxplot"]

/-- The type `src/AJAYJS/charts/charts.js` finally renders: an
extension-backed tag is kept only if the renderer registry, queried at render
time, has a controller (`registry.getControllers().has`) or a plugin
(`plugins.get`) under that tag; otherwise it falls back to `"bar"`. -/
def ajayjsRenderType (requested : String)
    (hasController hasPlugin : String → Bool) : String :=
  let t := ajayjsEffectiveType requested
  if extensionTypes.contains t then
    if hasController t || hasPlugin t then t else "bar"
  else t

/-- The type-alias `switch` of `_buildAndRender` in `src/charts/charts.js`
(`ohlc` keeps its own tag here). -/
def chartsEffectiveType (requested : String) : String :=
  let lowerType := lowerStr requested
  if lowerType == "area" then "line"
  else if lowerType == "heatmap" then "matrix"
  else if lowerType == "treemap" then "treemap"
  else if lowerType == "candlestick" then "candlestick"
  else if lowerType == "ohlc" then "ohlc"
  else if lowerType == "gauge" then "doughnut"
  else if lowerType == "funnel" then "funnel"
  else if lowerType == "boxplot" then "boxplot"
  else if lowerType == "histogram" then "bar"
  else requested

/-- The type `src/charts/charts.js` finally renders: the static alias mapping;
this file never consults the registry, so the arguments standing for the
registry queries are ignored. -/
def chartsRenderType (requested : String)
    (_hasController _hasPlugin : String → Bool) : String :=
  chartsEffectiveType requested

/-- `removeDataset(index)` (identical in both files) acting on the stored
dataset list: splice exactly when `index >= 0 && index < datasets.length`. -/
def removeDataset (datasets : List DS) (index : Int) : List DS :=
  if 0 ≤ index ∧ index < (datasets.length : Int) then
    datasets.eraseIdx index.toNat
  else datasets

/-- `updateData(dsIndex, newData)` (identical in both files): when
`datasets[dsIndex]` exists (dataset objects are truthy) its `data` field is
replaced by `newData` if that is an array, else by `[]`; otherwise the guard
`if (this._config.datasets[dsIndex])` makes the call a no-op. -/
def updateData (datasets : List DS) (dsIndex : Int) (newData : JVal) : List DS :=
  if 0 ≤ dsIndex then
    match datasets[dsIndex.toNat]? with
    | some ds =>
        datasets.set dsIndex.toNat
          { ds with data := some (match newData with
              | JVal.arr l => JVal.arr l
              | _ => JVal.arr []) }
    | none => datasets
  else datasets

/-- The fields a spread `...t` contributes to an object literal: spreading an
object copies its fields; spreading `null` (or `undefined`) contributes
nothing.  Spreading arrays or strings, which would contribute index keys,
never happens on the merge claims' paths and is modelled as nothing. -/
def initFields : JVal → List (String × JVal)
  | JVal.obj tf => tf
  | _ => []

/-- The source-side guard of `_deepMerge`:
`v !== null && typeof v === 'object' && !Array.isArray(v)`. -/
def isPlainObject : JVal → Bool
  | JVal.obj _ => true
  | _ => false

mutual

/-- `_deepMerge(target, source)` (identical in both files); `none` models a
thrown `TypeError`.  The output starts as a copy of the target's fields
(`...target`), then every source key is assigned in order: when the source
value passes `isPlainObject`, the code evaluates `key in target` — which
throws if the target is `null` or another primitive, since the target-side
guard checks `typeof target[key] === 'object'` but, unlike the source side,
not `!== null` — and recurses when the target's value at the key is an object
or `null`; in every other case the source value is assigned wholesale.  A
non-object source contributes no keys (`for ... in` iterates nothing). -/
def deepMerge : JVal → JVal → Option JVal
  | t, JVal.obj sf => (mergeEntries t (initFields t) sf).map JVal.obj
  | t, _ => some (JVal.obj (initFields t))
termination_by _ s => sizeOf s
decreasing_by all_goals simp_wf

/-- The `for (const key in source)` loop of `_deepMerge`, carrying the
original target `t` and the accumulated output object `out`. -/
def mergeEntries (t : JVal) (out : List (String × JVal)) :
    List (String × JVal) → Option (List (String × JVal))
  | [] => some out
  | (k, sv) :: rest =>
    if isPlainObject sv then
      match t with
      | JVal.obj tf =>
        match jGet tf k with
        | some tv =>
          match tv with
          | JVal.null =>
            match deepMerge tv sv with
            | some mv => mergeEntries t (objUpd out k mv) rest
            | none => none
          | JVal.obj _ =>
            match deepMerge tv sv with
            | some mv => mergeEntries t (objUpd out k mv) rest
            | none => none
          | _ => mergeEntries t (objUpd out k sv) rest
        | none => mergeEntries t (objUpd out k sv) rest
      | JVal.arr _ => mergeEntries t (objUpd out k sv) rest
      | JVal.func => mergeEntries t (objUpd out k sv) rest
      | _ => none
    else mergeEntries t (objUpd out k sv) rest
termination_by l => sizeOf l
decreasing_by all_goals simp_wf <;> omega

end

/-- The finite numeric values `_buildHistogramDataset` keeps from `ds.data`
(`typeof v === 'number'`; the extra `!isNaN` guard of the AJAYJS version is
automatic here, every rational being finite). -/
def histRawValues (ds : DS) : List ℚ :=
  match ds.data with
  | some (JVal.arr l) => l.filterMap asNum
  | _ => []

/-- `Math.min(...rawValues)` on a non-empty list (the `0` is never used: the
binners return early on empty input). -/
def listMin : List ℚ → ℚ
  | [] => 0
  | x :: xs => xs.foldl min x

/-- `Math.max(...rawValues)` on a non-empty list. -/
def listMax : List ℚ → ℚ
  | [] => 0
  | x :: xs => xs.foldl max x

/-- `edges.slice().sort((a, b) => a - b)`: ascending numeric sort (equal
rationals are indistinguishable values, so stability is immaterial). -/
def sortAsc (l : List ℚ) : List ℚ :=
  List.insertionSort (· ≤ ·) l

/-- The explicit-edge extension step of `src/AJAYJS/charts/charts.js`:
`unshift` the observed minimum when it falls below the first edge, then
`push` the observed maximum when it exceeds the last edge. -/
def extendEdges (edges : List ℚ) (mn mx : ℚ) : List ℚ :=
  let e1 := if mn < edges.headD 0 then mn :: edges else edges
  if e1.getLastD 0 < mx then e1 ++ [mx] else e1

/-- `typeof ds.bins === 'number' && ds.bins > 0 ? ds.bins : 10` (AJAYJS). -/
def ajayjsBinCount (ds : DS) : ℚ :=
  match ds.bins with
  | some (JVal.num q) => if 0 < q then q else 10
  | _ => 10

/-- `typeof ds.bins === 'number' ? ds.bins : 10` (`src/charts`): no
positivity guard. -/
def chartsBinCount (ds : DS) : ℚ :=
  match ds.bins with
  | some (JVal.num q) => q
  | _ => 10

/-- The loop `for (let i = 0; i <= binCount; i++) edges.push(minVal + i * binWidth)`:
one edge per integer `0 ≤ i ≤ binCount` (none when `binCount < 0`).  A zero
bin count makes `binWidth` an IEEE infinity in JavaScript; the rational model
is exercised only at positive counts, which every claim supplies. -/
def edgeLoop (minVal binWidth binCount : ℚ) : List ℚ :=
  (List.range (if binCount < 0 then 0 else (⌊binCount⌋).toNat + 1)).map
    (fun i : Nat => minVal + (i : ℚ) * binWidth)

/-- The guard `Array.isArray(ds.binEdges) && ds.binEdges.length >= 2`, with
the numeric view of the edge array (the claims use numeric edges; non-numeric
entries would make the JavaScript comparator return NaN). -/
def explicitEdges (ds : DS) : Option (List ℚ) :=
  match ds.binEdges with
  | some (JVal.arr l) => if 2 ≤ l.length then some (l.filterMap asNum) else none
  | _ => none

/-- Edge construction of `_buildHistogramDataset` in
`src/AJAYJS/charts/charts.js`: explicit edges are sorted ascending and
extended by the observed minimum/maximum; otherwise `binCount` equal-width
edges over `[min, max]`, the last clamped up to the maximum if short. -/
def ajayjsHistEdges (ds : DS) (raw : List ℚ) : List ℚ :=
  match explicitEdges ds with
  | some l => extendEdges (sortAsc l) (listMin raw) (listMax raw)
  | none =>
    let binWidth := (listMax raw - listMin raw) / ajayjsBinCount ds
    let edges := edgeLoop (listMin raw) binWidth (ajayjsBinCount ds)
    if edges.getLastD 0 < listMax raw then edges.dropLast ++ [listMax raw]
    else edges

/-- Edge construction of `_buildHistogramDataset` in `src/charts/charts.js`:
explicit edges are only sorted — never extended — and the equal-width path
has neither positivity guard nor final clamp. -/
def chartsHistEdges (ds : DS) (raw : List ℚ) : List ℚ :=
  match explicitEdges ds with
  | some l => sortAsc l
  | none =>
    let binWidth := (listMax raw - listMin raw) / chartsBinCount ds
    edgeLoop (listMin raw) binWidth (chartsBinCount ds)

/-- The inner `for` loop of `_buildHistogramDataset` (identical in both
files), walking adjacent edge pairs with a running index: the first pair with
`edges[i] <= val < edges[i+1]` wins; at the last pair only, `val === edges[i+1]`
also counts. -/
def binIndexAux (v : ℚ) : List ℚ → Nat → Option Nat
  | e0 :: e1 :: rest, i =>
    if e0 ≤ v ∧ v < e1 then some i
    else if rest = [] ∧ v = e1 then some i
    else binIndexAux v (e1 :: rest) (i + 1)
  | _, _ => none

/-- The bin a value is counted in, if any. -/
def binIndex (edges : List ℚ) (v : ℚ) : Option Nat :=
  binIndexAux v edges 0

/-- `freq[i]++`. -/
def bumpAt (freq : List Nat) (i : Nat) : List Nat :=
  freq.set i (freq.getD i 0 + 1)

/-- One value's contribution to the frequency array: increment the bin the
inner loop finds, if any. -/
def countStep (edges : List ℚ) (freq : List Nat) (v : ℚ) : List Nat :=
  match binIndex edges v with
  | some i => bumpAt freq i
  | none => freq

/-- The frequency array: `new Array(edges.length - 1).fill(0)`, then one pass
over the values. -/
def countBins (edges : List ℚ) (vals : List ℚ) : List Nat :=
  vals.foldl (countStep edges) (List.replicate (edges.length - 1) 0)

/-- Modelled from the claim's words, for comparison with `binIndex`: the
first bin `i` with `edges[i] <= v < edges[i+1]` (half-open), walked with a
running index. -/
def claimFirstHalfOpen (v : ℚ) : List ℚ → Nat → Option Nat
  | e0 :: e1 :: rest, i =>
    if e0 ≤ v ∧ v < e1 then some i else claimFirstHalfOpen v (e1 :: rest) (i + 1)
  | _, _ => none

/-- Modelled from the claim's words: each value goes to the first half-open
bin, except that a value exactly equal to the final edge goes to the last
bin. -/
def claimBinIndex (edges : List ℚ) (v : ℚ) : Option Nat :=
  if 2 ≤ edges.length ∧ v = edges.getLastD 0 then some (edges.length - 2)
  else claimFirstHalfOpen v edges 0

/-- The dataset of claim C1's concrete example: values `[1, 6, 10]` with
explicit bin edges `[0, 5, 10]`. -/
def histDs1 : DS :=
  { data := some (JVal.arr [JVal.num 1, JVal.num 6, JVal.num 10]),
    binEdges := some (JVal.arr [JVal.num 0, JVal.num 5, JVal.num 10]) }

/-- The dataset of claim C3's concrete refutation: values `[1, 6]` with
explicit bin edges `[5, 10]`, whose observed minimum 1 lies below the first
edge. -/
def histDs2 : DS :=
  { data := some (JVal.arr [JVal.num 1, JVal.num 6]),
    binEdges := some (JVal.arr [JVal.num 5, JVal.num 10]) }

/-- The dataset of claim C10's witness: three copies of the value 5, four
bins, no explicit edges. -/
def histDs3 : DS :=
  { data := some (JVal.arr [JVal.num 5, JVal.num 5, JVal.num 5]),
    bins := some (JVal.num 4) }

/-- Two-digit zero padding for the fractional part of a label. -/
def pad2 (m : Nat) : String :=
  if m < 10 then "0" ++ toString m else toString m

/-- `q.toFixed(2)`: the integer nearest `|q| * 100` (ties toward the larger),
rendered with two decimals and the sign of `q` in front, following the
ECMAScript algorithm on the exact rationals of this model. -/
def toFixed2 (q : ℚ) : String :=
  (if q < 0 then "-" else "") ++
    toString ((⌊|q| * 100 + 1 / 2⌋).toNat / 100) ++ "." ++
    pad2 ((⌊|q| * 100 + 1 / 2⌋).toNat % 100)

/-- The histogram output records: one `{x: label, y: count}` per bin, the
label being the two edges rendered by `toFixed(2)` joined by `sep` (a plain
hyphen in `src/AJAYJS`, an en dash in `src/charts`). -/
def histDataArray (edges : List ℚ) (freq : List Nat) (sep : String) : List JVal :=
  (List.range freq.length).map (fun i =>
    JVal.obj
      [("x", JVal.str (toFixed2 (edges.getD i 0) ++ sep ++
        toFixed2 (edges.getD (i + 1) 0))),
       ("y", JVal.num (freq.getD i 0))])

/-- Property access `o.k` where the base literal always contains `k`;
`JVal.null` stands in for the unreachable absent case. -/
def jGetD (o : List (String × JVal)) (k : String) : JVal :=
  (jGet o k).getD JVal.null

/-- `Array.isArray(x) ? x : []` for a possibly-absent field. -/
def jsArrOrEmpty (v : Option JVal) : JVal :=
  match v with
  | some (JVal.arr l) => JVal.arr l
  | _ => JVal.arr []

/-- The `base` literal of `_normalizeDataset` in `src/AJAYJS/charts/charts.js`:
label, data, colours and border width with their defaults, then the
passthrough bag spread last. -/
def ajayjsBase (ds : DS) (defaultColor : String) : List (String × JVal) :=
  objExtend
    [("label", nullish ds.label (JVal.str "")),
     ("data", jsArrOrEmpty ds.data),
     ("backgroundColor", nullish ds.backgroundColor (JVal.str defaultColor)),
     ("borderColor", nullish ds.borderColor (JVal.str defaultColor)),
     ("borderWidth", numOr ds.borderWidth 2)]
    ds.additionalProps

/-- `_buildHistogramDataset` of `src/AJAYJS/charts/charts.js` as the rendered
dataset object.  On data with no finite numeric value it returns early —
without the passthrough bag; otherwise the full object with the passthrough
bag spread last. -/
def ajayjsHistDataset (ds : DS) (defaultColor : String) : List (String × JVal) :=
  if (histRawValues ds).length = 0 then
    [("label", nullish ds.label (JVal.str "Histogram")),
     ("data", JVal.arr []),
     ("backgroundColor", JVal.str defaultColor)]
  else
    objExtend
      [("label", nullish ds.label (JVal.str "Histogram")),
       ("data", JVal.arr (histDataArray (ajayjsHistEdges ds (histRawValues ds))
         (countBins (ajayjsHistEdges ds (histRawValues ds)) (histRawValues ds))
         " - ")),
       ("backgroundColor", nullish ds.backgroundColor (JVal.str defaultColor)),
       ("borderColor", nullish ds.borderColor (JVal.str defaultColor)),
       ("borderWidth", numOr ds.borderWidth 1),
       ("barPercentage", JVal.num 1),
       ("categoryPercentage", JVal.num 1)]
      ds.additionalProps

/-- `_buildHistogramDataset` of `src/charts/charts.js`: same early return on
empty numeric data; no bar/category percentage fields; en-dash label
separator. -/
def chartsHistDataset (ds : DS) (defaultColor : String) : List (String × JVal) :=
  if (histRawValues ds).length = 0 then
    [("label", nullish ds.label (JVal.str "Histogram")),
     ("data", JVal.arr []),
     ("backgroundColor", JVal.str defaultColor)]
  else
    objExtend
      [("label", nullish ds.label (JVal.str "Histogram")),
       ("data", JVal.arr (histDataArray (chartsHistEdges ds (histRawValues ds))
         (countBins (chartsHistEdges ds (histRawValues ds)) (histRawValues ds))
         " – ")),
       ("backgroundColor", nullish ds.backgroundColor (JVal.str defaultColor)),
       ("borderColor", nullish ds.borderColor (JVal.str defaultColor)),
       ("borderWidth", numOr ds.borderWidth 1)]
      ds.additionalProps

/-- `_normalizeDataset` of `src/AJAYJS/charts/charts.js`.  The
line/scatter/radar, area, pie/doughnut/polarArea and bubble branches assign
their type-specific fields onto `base` after the passthrough bag was spread;
the object-returning branches spread the passthrough bag last.  The gauge
data slot `(ds.data[1] ?? 100) - ds.data[0]` is numeric in this model
(`JVal.null` stands in for the NaN a non-numeric slot would give). -/
def ajayjsNormalizeDataset (theme : String) (ds : DS) (defaultColor : String)
    (lowerType : String) : List (String × JVal) :=
  let base := ajayjsBase ds defaultColor
  if lowerType = "line" ∨ lowerType = "scatter" ∨ lowerType = "radar" then
    objUpd (objUpd (objUpd base "pointRadius" (numOr ds.pointRadius 4))
      "fill" (boolOr ds.fill false)) "tension" (numOr ds.tension (2 / 5))
  else if lowerType = "area" then
    objUpd (objUpd (objUpd base "pointRadius" (numOr ds.pointRadius 4))
      "fill" (boolOr ds.fill true)) "tension" (numOr ds.tension (2 / 5))
  else if lowerType = "pie" ∨ lowerType = "doughnut" ∨ lowerType = "polararea" then
    objUpd (objUpd (objUpd base "backgroundColor"
        (match ds.backgroundColor with
         | some (JVal.arr l) => JVal.arr l
         | _ => JVal.arr [JVal.str defaultColor]))
      "hoverOffset" (numOr ds.hoverOffset 4)) "borderWidth" (numOr ds.borderWidth 2)
  else if lowerType = "bubble" then
    objUpd base "radius"
      (match ds.radius with
       | some (JVal.num q) => JVal.num q
       | some (JVal.arr l) => JVal.arr l
       | _ => JVal.num 5)
  else if lowerType = "histogram" then
    ajayjsHistDataset ds defaultColor
  else if lowerType = "candlestick" ∨ lowerType = "ohlc" then
    objExtend
      [("label", nullish ds.label (JVal.str "OHLC")),
       ("data", jGetD base "data"),
       ("rising", JVal.obj [("color", nullish ds.risingColor (JVal.str "#26a69a"))]),
       ("falling", JVal.obj [("color", nullish ds.fallingColor (JVal.str "#ef5350"))]),
       ("neutral", JVal.obj [("color", nullish ds.neutralColor (JVal.str "#999999"))])]
      ds.additionalProps
  else if lowerType = "heatmap" then
    objExtend
      [("label", nullish ds.label (JVal.str "Heatmap")),
       ("data", jGetD base "data"),
       ("backgroundColor", nullish ds.backgroundColor (JVal.str defaultColor)),
       ("borderColor", nullish ds.borderColor (JVal.str defaultColor)),
       ("borderWidth", numOr ds.borderWidth 1)]
      ds.additionalProps
  else if lowerType = "treemap" then
    objExtend
      [("label", nullish ds.label (JVal.str "Treemap")),
       ("data", jGetD base "data"),
       ("key", nullish ds.key (JVal.str "value")),
       ("groups", jsArrOrEmpty ds.groups),
       ("backgroundColor", jGetD base "backgroundColor"),
       ("spacing", numOr ds.spacing 2),
       ("fontColor", nullish ds.fontColor
         (JVal.str (if theme = "light" then "#000000" else "#ffffff")))]
      ds.additionalProps
  else if lowerType = "boxplot" then
    objExtend
      [("label", nullish ds.label (JVal.str "Boxplot")),
       ("data", jGetD base "data"),
       ("padding", numOr ds.padding 10),
       ("itemRadius", numOr ds.itemRadius 2),
       ("outlierColor", nullish ds.outlierColor (JVal.str "#777777")),
       ("itemStyle", nullish ds.itemStyle (JVal.str "circle"))]
      ds.additionalProps
  else if lowerType = "gauge" then
    objExtend
      [("label", nullish ds.label (JVal.str "Gauge")),
       ("data", JVal.arr
         (match ds.data with
          | some (JVal.arr (d0 :: rest)) =>
            [d0,
             match asNum d0, asNum (nullish rest.head? (JVal.num 100)) with
             | some a, some b => JVal.num (max 0 (b - a))
             | _, _ => JVal.null]
          | _ => [JVal.num 0, JVal.num 100])),
       ("backgroundColor", nullish ds.backgroundColor
         (JVal.arr [JVal.str defaultColor, JVal.str "#e0e0e0"])),
       ("borderWidth", JVal.num 0),
       ("circumference", numOr ds.circumference 180),
       ("rotation", numOr ds.rotation (-90)),
       ("cutout", nullish ds.cutout (JVal.str "80%"))]
      ds.additionalProps
  else base

/-- The `base` literal of `_normalizeDataset` in `src/charts/charts.js`: here
the line-style fields are part of the base, so they precede the passthrough
spread. -/
def chartsBase (ds : DS) (defaultColor : String) : List (String × JVal) :=
  objExtend
    [("label", nullish ds.label (JVal.str "")),
     ("data", jsArrOrEmpty ds.data),
     ("backgroundColor", nullish ds.backgroundColor (JVal.str defaultColor)),
     ("borderColor", nullish ds.borderColor (JVal.str defaultColor)),
     ("borderWidth", numOr ds.borderWidth 2),
     ("pointRadius", numOr ds.pointRadius 4),
     ("fill", boolOr ds.fill false),
     ("tension", numOr ds.tension (2 / 5))]
    ds.additionalProps

/-- `_normalizeDataset` of `src/charts/charts.js`: every branch spreads the
passthrough bag last (the heatmap branch installs a colour-picking closure,
stood in for by `JVal.func`). -/
def chartsNormalizeDataset (ds : DS) (defaultColor : String)
    (lowerType : String) : List (String × JVal) :=
  let base := chartsBase ds defaultColor
  if lowerType = "histogram" then
    objExtend
      [("label", nullish ds.label (JVal.str "Histogram")),
       ("data", jGetD base "data"),
       ("backgroundColor", nullish ds.backgroundColor (JVal.str defaultColor)),
       ("borderColor", nullish ds.borderColor (JVal.str defaultColor)),
       ("borderWidth", jGetD base "borderWidth")]
      ds.additionalProps
  else if lowerType = "candlestick" ∨ lowerType = "ohlc" then
    objExtend
      [("label", nullish ds.label (JVal.str "OHLC")),
       ("data", jGetD base "data"),
       ("rising", JVal.obj [("color", nullish ds.risingColor (JVal.str "#26a69a"))]),
       ("falling", JVal.obj [("color", nullish ds.fallingColor (JVal.str "#ef5350"))])]
      ds.additionalProps
  else if lowerType = "heatmap" then
    objExtend
      [("label", nullish ds.label (JVal.str "Heatmap")),
       ("data", jGetD base "data"),
       ("backgroundColor", JVal.func),
       ("borderWidth", numOr ds.borderWidth 1)]
      ds.additionalProps
  else if lowerType = "treemap" then
    objExtend
      [("label", nullish ds.label (JVal.str "Treemap")),
       ("data", jGetD base "data"),
       ("key", nullish ds.key (JVal.str "value")),
       ("groups", jsArrOrEmpty ds.groups),
       ("backgroundColor", jGetD base "backgroundColor")]
      ds.additionalProps
  else if lowerType = "boxplot" then
    objExtend
      [("label", nullish ds.label (JVal.str "Boxplot")),
       ("data", jGetD base "data"),
       ("padding", numOr ds.padding 10),
       ("itemRadius", numOr ds.itemRadius 2),
       ("outlierColor", nullish ds.outlierColor (JVal.str "#777"))]
      ds.additionalProps
  else base

/-- The per-dataset step of `_buildAndRender` in `src/charts/charts.js`:
histogram datasets go straight to the binner; `area` datasets are first
mutated to `fill = true`; `gauge` datasets get background, hover-offset and
border-width mutations; everything then runs through the normalizer.  (The
colour is modelled as always present; past the palette's end `src/charts`
would actually pass `undefined`, see `chartsDatasetColor`.) -/
def chartsRenderDataset (ds : DS) (defaultColor : String)
    (lowerType : String) : List (String × JVal) :=
  if lowerType = "histogram" then chartsHistDataset ds defaultColor
  else if lowerType = "area" then
    chartsNormalizeDataset { ds with fill := some (JVal.bool true) }
      defaultColor lowerType
  else if lowerType = "gauge" then
    chartsNormalizeDataset
      { ds with
        backgroundColor := some (nullish ds.backgroundColor
          (JVal.arr [JVal.str defaultColor, JVal.str "#e0e0e0"])),
        hoverOffset := some (nullish ds.hoverOffset (JVal.num 0)),
        borderWidth := some (JVal.num 0) }
      defaultColor lowerType
  else chartsNormalizeDataset ds defaultColor lowerType

theorem paletteBase_length (theme : String) : (paletteBase theme).length = 10 := by
  unfold paletteBase
  split <;> rfl

/-- C9: for every `n` greater than the built-in palette table size of 10,
every theme and every index `i < n`, `generatePalette n theme` has length `n`
and its entry at `i` equals its entry at `i % 10`; being a pure function of
`(n, theme)`, the generation is fully deterministic. -/
theorem generatePalette_cycles (n : Nat) (theme : String) (i : Nat)
    (hn : 10 < n) (hi : i < n) :
    (generatePalette n theme).length = n ∧
    (generatePalette n theme)[i]? = (generatePalette n theme)[i % 10]? := by
  constructor
  · simp [generatePalette]
  · have hmod : i % 10 < n := lt_trans (Nat.mod_lt i (by norm_num)) hn
    simp only [generatePalette, List.getElem?_map, List.getElem?_range hi,
      List.getElem?_range hmod, Option.map_some', paletteBase_length]
    rw [Nat.mod_mod_of_dvd i (dvd_refl 10)]

/-- Witness for C9 at `n = 11`, `theme = "dark"`, `i = 10`. -/
theorem generatePalette_cycles_witness :
    (generatePalette 11 "dark").length = 11 ∧
    (generatePalette 11 "dark")[10]? = (generatePalette 11 "dark")[10 % 10]? :=
  generatePalette_cycles 11 "dark" 10 (by decide) (by decide)

/-- C8: for every dataset list and every index outside the current range,
`removeDataset` and `updateData` leave the dataset sequence unchanged (and,
being total functions, raise nothing). -/
theorem mutations_out_of_range_noop (datasets : List DS) (i : Int) (d : JVal)
    (h : i < 0 ∨ (datasets.length : Int) ≤ i) :
    removeDataset datasets i = datasets ∧ updateData datasets i d = datasets := by
  constructor
  · unfold removeDataset
    rcases h with h | h
    · rw [if_neg]
      rintro ⟨h0, -⟩
      exact absurd (lt_of_lt_of_le h h0) (lt_irrefl i)
    · rw [if_neg]
      rintro ⟨-, hlt⟩
      exact absurd (lt_of_lt_of_le hlt h) (lt_irrefl i)
  · unfold updateData
    rcases h with h | h
    · rw [if_neg (not_le.mpr h)]
    · by_cases h0 : 0 ≤ i
      · rw [if_pos h0]
        have hge : datasets.length ≤ i.toNat := by
          omega
        rw [List.getElem?_eq_none hge]
      · rw [if_neg h0]

/-- Witness for C8: index 3 on a one-element dataset list. -/
theorem mutations_out_of_range_noop_witness :
    removeDataset [{ label := some (JVal.str "a") }] 3 = [{ label := some (JVal.str "a") }] ∧
    updateData [{ label := some (JVal.str "a") }] 3 (JVal.num 1) = [{ label := some (JVal.str "a") }] :=
  mutations_out_of_range_noop [{ label := some (JVal.str "a") }] 3 (JVal.num 1)
    (Or.inr (by decide))

/-- C6 counterexample: in `src/charts/charts.js` a requested `treemap` chart is
rendered with type `treemap` regardless of registration state — that file
performs no registration check and never falls back to `"bar"`, so with no
extension registered the claimed fallback does not happen. -/
theorem charts_no_fallback_counterexample :
    chartsRenderType "treemap" (fun _ => false) (fun _ => false) = "treemap" ∧
    chartsRenderType "treemap" (fun _ => false) (fun _ => false) ≠ "bar" := by
  exact ⟨by decide, by decide⟩

/-- C6 (amended): only the `src/AJAYJS` render path checks registration at
render time — an extension-backed resolved type is kept exactly when the
registry query (controller or plugin) succeeds and otherwise falls back to
`"bar"` — while the `src/charts` render path is a static mapping whose result
is independent of any registration state. -/
theorem ajayjs_render_time_fallback (req : String) (hasC hasP : String → Bool)
    (hext : extensionTypes.contains (ajayjsEffectiveType req) = true) :
    (hasC (ajayjsEffectiveType req) = false → hasP (ajayjsEffectiveType req) = false →
      ajayjsRenderType req hasC hasP = "bar") ∧
    (hasC (ajayjsEffectiveType req) = true ∨ hasP (ajayjsEffectiveType req) = true →
      ajayjsRenderType req hasC hasP = ajayjsEffectiveType req) ∧
    (∀ hasC2 hasP2 : String → Bool,
      chartsRenderType req hasC hasP = chartsRenderType req hasC2 hasP2) := by
  refine ⟨?_, ?_, fun _ _ => rfl⟩
  · intro h1 h2
    simp only [ajayjsRenderType]
    rw [if_pos hext, h1, h2]
    simp
  · intro h
    simp only [ajayjsRenderType]
    rw [if_pos hext]
    rcases h with h | h <;> rw [h] <;> simp

/-- Witness for C6 (amended) at requested type `treemap`, with an empty
registry (fallback fires) and with a registered controller (tag kept). -/
theorem ajayjs_render_time_fallback_witness :
    ajayjsRenderType "treemap" (fun _ => false) (fun _ => false) = "bar" ∧
    ajayjsRenderType "treemap" (fun _ => true) (fun _ => false) = "treemap" := by
  constructor
  · exact (ajayjs_render_time_fallback "treemap" (fun _ => false) (fun _ => false)
      (by decide)).1 rfl rfl
  · exact (ajayjs_render_time_fallback "treemap" (fun _ => true) (fun _ => false)
      (by decide)).2.1 (Or.inl rfl)

/-- C7 counterexample: with the explicit one-colour palette `["#ff0000"]`,
`src/charts/charts.js` hands dataset 1 the colour `palette[1]`, which is
`undefined` — not `palette[1 % 1] = "#ff0000"` as the claim states. -/
theorem charts_palette_no_cycle_counterexample :
    chartsDatasetColor ["#ff0000"] 1 = none ∧
    chartsDatasetColor ["#ff0000"] 1 ≠ some "#ff0000" :=
  ⟨rfl, by decide⟩

/-- C7 (amended): a non-empty explicit palette is used as-is in both files
(never regenerated or extended); `src/AJAYJS` hands dataset `i` the colour
`palette[i % palette.length]` (always defined, cycling), while `src/charts`
hands it `palette[i]`, which is `undefined` once `i ≥ palette.length`. -/
theorem explicit_palette_used_as_is (p : List String) (n : Nat) (θ : String)
    (i : Nat) (hp : p ≠ []) :
    selectPalette p n θ = p ∧
    (ajayjsDatasetColor p i = p[i % p.length]? ∧
      (ajayjsDatasetColor p i).isSome = true) ∧
    (p.length ≤ i → chartsDatasetColor p i = none) := by
  have hpos : 0 < p.length := List.length_pos.mpr hp
  refine ⟨?_, ⟨?_, ?_⟩, ?_⟩
  · unfold selectPalette
    rw [if_pos (Nat.pos_iff_ne_zero.mp hpos)]
  · unfold ajayjsDatasetColor
    rw [if_neg (Nat.pos_iff_ne_zero.mp hpos)]
  · unfold ajayjsDatasetColor
    rw [if_neg (Nat.pos_iff_ne_zero.mp hpos),
      List.getElem?_eq_getElem (Nat.mod_lt i hpos)]
    rfl
  · intro h
    exact List.getElem?_eq_none h

/-- Witness for C7 (amended) at palette `["#ff0000"]`, two datasets, index 1. -/
theorem explicit_palette_used_as_is_witness :
    selectPalette ["#ff0000"] 2 "dark" = ["#ff0000"] ∧
    (ajayjsDatasetColor ["#ff0000"] 1 = ["#ff0000"][1 % 1]? ∧
      (ajayjsDatasetColor ["#ff0000"] 1).isSome = true) ∧
    (["#ff0000"].length ≤ 1 → chartsDatasetColor ["#ff0000"] 1 = none) :=
  explicit_palette_used_as_is ["#ff0000"] 2 "dark" 1 (by decide)

/-- C2: the code evaluated at the failing input and at the claim's own
examples.  Merging default `{a: null}` with override `{a: {b: {}}}` throws a
`TypeError` (the recursion evaluates `'b' in null`), modelled `none`, instead
of the override replacing the default wholesale as the claim states.  The
claim's examples do hold: `{a: [1,2]}` merged with `{a: [9]}` gives
`{a: [9]}` (arrays replaced wholesale, never element-wise), and an empty
override returns the default tree unchanged. -/
theorem deepMerge_null_target_throws :
    deepMerge (JVal.obj [("a", JVal.null)])
        (JVal.obj [("a", JVal.obj [("b", JVal.obj [])])]) = none ∧
    deepMerge (JVal.obj [("a", JVal.arr [JVal.num 1, JVal.num 2])])
        (JVal.obj [("a", JVal.arr [JVal.num 9])]) =
      some (JVal.obj [("a", JVal.arr [JVal.num 9])]) ∧
    deepMerge (JVal.obj [("a", JVal.num 1), ("b", JVal.obj [("c", JVal.str "x")])])
        (JVal.obj []) =
      some (JVal.obj [("a", JVal.num 1), ("b", JVal.obj [("c", JVal.str "x")])]) := by
  refine ⟨?_, ?_, ?_⟩ <;>
    simp +decide [deepMerge, mergeEntries, initFields, isPlainObject, jGet, objUpd]

theorem getLastD_cons_cons (a b d : ℚ) (l : List ℚ) :
    (a :: b :: l).getLastD d = (b :: l).getLastD d := by
  rw [List.getLastD_cons, List.getLastD_cons, List.getLastD_cons]

theorem sorted_head_le_getLastD (a : ℚ) (l : List ℚ)
    (hs : (a :: l).Sorted (· ≤ ·)) : a ≤ (a :: l).getLastD 0 := by
  induction l generalizing a with
  | nil => simp
  | cons b t ih =>
    rw [getLastD_cons_cons]
    have hab : a ≤ b := (List.sorted_cons.mp hs).1 b (by simp)
    exact le_trans hab (ih b (List.sorted_cons.mp hs).2)

theorem binIndexAux_last (v e0 e1 : ℚ) (rest : List ℚ) (i : Nat)
    (hs : (e0 :: e1 :: rest).Sorted (· ≤ ·))
    (hv : v = (e0 :: e1 :: rest).getLastD 0) :
    binIndexAux v (e0 :: e1 :: rest) i = some (i + rest.length) := by
  induction rest generalizing e0 e1 i with
  | nil =>
    have hv1 : v = e1 := by simpa using hv
    unfold binIndexAux
    rw [if_neg, if_pos ⟨rfl, hv1⟩]
    · simp
    · rintro ⟨-, hlt⟩
      rw [hv1] at hlt
      exact lt_irrefl e1 hlt
  | cons r rs ih =>
    have htail : (e1 :: r :: rs).Sorted (· ≤ ·) := (List.sorted_cons.mp hs).2
    have hvtail : v = (e1 :: r :: rs).getLastD 0 := by
      rw [hv, getLastD_cons_cons]
    have he1v : e1 ≤ v := hvtail ▸ sorted_head_le_getLastD e1 (r :: rs) htail
    unfold binIndexAux
    rw [if_neg, if_neg]
    · rw [ih e1 r (i + 1) htail hvtail]
      congr 1
      simp only [List.length_cons]
      omega
    · rintro ⟨hre, -⟩
      exact absurd hre (by simp)
    · rintro ⟨-, hlt⟩
      exact absurd hlt (not_lt.mpr he1v)

theorem binIndexAux_eq_firstHalfOpen (v : ℚ) (edges : List ℚ)
    (hnl : edges.length < 2 ∨ v ≠ edges.getLastD 0) :
    ∀ i, binIndexAux v edges i = claimFirstHalfOpen v edges i := by
  induction edges with
  | nil => intro i; rfl
  | cons e0 tail ih =>
    intro i
    cases tail with
    | nil => rfl
    | cons e1 rest =>
      by_cases hc : e0 ≤ v ∧ v < e1
      · unfold binIndexAux claimFirstHalfOpen
        rw [if_pos hc, if_pos hc]
      · have hc2 : ¬(rest = [] ∧ v = e1) := by
          rintro ⟨hre, hve⟩
          subst hre
          rcases hnl with h | h
          · simp only [List.length_cons] at h
            omega
          · exact h (by simp [hve])
        unfold binIndexAux claimFirstHalfOpen
        rw [if_neg hc, if_neg hc2, if_neg hc]
        apply ih
        rcases hnl with h | h
        · exfalso
          simp only [List.length_cons] at h
          omega
        · cases rest with
          | nil => exact Or.inl (by simp)
          | cons r rs => exact Or.inr (by rwa [getLastD_cons_cons] at h)

/-- C1: over sorted edges (as both binners produce), the code's bin
assignment agrees with the claim's rule — the first bin `i` with
`edges[i] <= v < edges[i+1]`, half-open, except that a value exactly equal to
the final edge goes to the last bin — and on the claim's concrete example
(values `[1, 6, 10]`, explicit edges `[0, 5, 10]`) both files' binners
produce the counts `[1, 2]`. -/
theorem histogram_binning_rule (edges : List ℚ) (v : ℚ)
    (hs : edges.Sorted (· ≤ ·)) :
    binIndex edges v = claimBinIndex edges v ∧
    countBins (ajayjsHistEdges histDs1 (histRawValues histDs1))
      (histRawValues histDs1) = [1, 2] ∧
    countBins (chartsHistEdges histDs1 (histRawValues histDs1))
      (histRawValues histDs1) = [1, 2] := by
  refine ⟨?_, by decide, by decide⟩
  unfold binIndex claimBinIndex
  by_cases hc : 2 ≤ edges.length ∧ v = edges.getLastD 0
  · rw [if_pos hc]
    obtain ⟨hlen, hv⟩ := hc
    rcases edges with - | ⟨e0, - | ⟨e1, rest⟩⟩
    · simp at hlen
    · simp at hlen
    · rw [binIndexAux_last v e0 e1 rest 0 hs hv]
      congr 1
      simp only [List.length_cons]
      omega
  · rw [if_neg hc]
    apply binIndexAux_eq_firstHalfOpen
    by_cases h2 : 2 ≤ edges.length
    · exact Or.inr (fun hv => hc ⟨h2, hv⟩)
    · exact Or.inl (by omega)

/-- Witness for C1 at edges `[0, 5, 10]` and the top-edge value `10`. -/
theorem histogram_binning_rule_witness :
    binIndex [0, 5, 10] 10 = claimBinIndex [0, 5, 10] 10 ∧
    countBins (ajayjsHistEdges histDs1 (histRawValues histDs1))
      (histRawValues histDs1) = [1, 2] ∧
    countBins (chartsHistEdges histDs1 (histRawValues histDs1))
      (histRawValues histDs1) = [1, 2] :=
  histogram_binning_rule [0, 5, 10] 10 (by decide)

theorem sorted_le_getLastD (x : ℚ) (xs : List ℚ)
    (hs : (x :: xs).Sorted (· ≤ ·)) :
    ∀ a ∈ x :: xs, a ≤ (x :: xs).getLastD 0 := by
  induction xs generalizing x with
  | nil =>
    intro a ha
    simp at ha
    simp [ha]
  | cons y ys ih =>
    intro a ha
    rcases List.mem_cons.mp ha with rfl | ha2
    · exact sorted_head_le_getLastD a (y :: ys) hs
    · rw [getLastD_cons_cons]
      exact ih y (List.sorted_cons.mp hs).2 a ha2

theorem push_max_sorted (x : ℚ) (xs : List ℚ) (mx : ℚ)
    (hs : (x :: xs).Sorted (· ≤ ·)) :
    (if (x :: xs).getLastD 0 < mx then x :: xs ++ [mx] else x :: xs).Sorted (· ≤ ·) ∧
    mx ≤ (if (x :: xs).getLastD 0 < mx then x :: xs ++ [mx] else x :: xs).getLastD 0 ∧
    (if (x :: xs).getLastD 0 < mx then x :: xs ++ [mx] else x :: xs).headD 0 = x := by
  by_cases hx : (x :: xs).getLastD 0 < mx
  · simp only [if_pos hx]
    refine ⟨?_, ?_, by simp⟩
    · refine List.pairwise_append.mpr ⟨hs, List.pairwise_singleton _ _, ?_⟩
      intro a ha b hb
      simp only [List.mem_singleton] at hb
      subst hb
      exact le_trans (sorted_le_getLastD x xs hs a ha) (le_of_lt hx)
    · rw [show x :: xs ++ [mx] = (x :: xs) ++ [mx] from rfl, List.getLastD_concat]
  · simp only [if_neg hx]
    exact ⟨hs, not_lt.mp hx, by simp⟩

theorem extendEdges_spec (e : ℚ) (es : List ℚ) (mn mx : ℚ)
    (hs : (e :: es).Sorted (· ≤ ·)) :
    (extendEdges (e :: es) mn mx).Sorted (· ≤ ·) ∧
    (extendEdges (e :: es) mn mx).headD 0 ≤ mn ∧
    mx ≤ (extendEdges (e :: es) mn mx).getLastD 0 := by
  simp only [extendEdges, List.headD_cons]
  by_cases hmn : mn < e
  · simp only [if_pos hmn]
    have hs2 : (mn :: e :: es).Sorted (· ≤ ·) := by
      rw [List.sorted_cons]
      refine ⟨?_, hs⟩
      intro b hb
      rcases List.mem_cons.mp hb with rfl | hb2
      · exact le_of_lt hmn
      · exact le_trans (le_of_lt hmn) ((List.sorted_cons.mp hs).1 b hb2)
    obtain ⟨h1, h2, h3⟩ := push_max_sorted mn (e :: es) mx hs2
    refine ⟨h1, ?_, h2⟩
    rw [h3]
  · simp only [if_neg hmn]
    obtain ⟨h1, h2, h3⟩ := push_max_sorted e es mx hs
    refine ⟨h1, ?_, h2⟩
    rw [h3]
    exact not_lt.mp hmn

/-- C3 counterexample: with explicit edges `[5, 10]` and data `[1, 6]` — the
observed minimum 1 lying below the first edge — the `src/charts` binner keeps
the edges `[5, 10]`: the minimum is not prepended as the claim states (the
`src/AJAYJS` binner does prepend it, producing `[1, 5, 10]`). -/
theorem charts_edges_not_extended_counterexample :
    chartsHistEdges histDs2 (histRawValues histDs2) = [5, 10] ∧
    chartsHistEdges histDs2 (histRawValues histDs2) ≠ [1, 5, 10] ∧
    listMin (histRawValues histDs2) < 5 ∧
    ajayjsHistEdges histDs2 (histRawValues histDs2) = [1, 5, 10] :=
  ⟨by decide, by decide, by decide, by decide⟩

/-- C3 (amended): given at least two explicit numeric bin edges, the
`src/AJAYJS` binner sorts them ascending and extends them by the observed
minimum and maximum exactly when those fall outside — the produced edges are
sorted, start at or below the observed minimum and end at or above the
observed maximum — while the `src/charts` binner sorts the edges ascending
but never extends them: its produced edges are exactly a permutation (the
ascending reordering) of the supplied ones. -/
theorem explicit_edges_handling (ds : DS) (l : List JVal) (raw : List ℚ)
    (hbe : ds.binEdges = some (JVal.arr l)) (hlen : 2 ≤ l.length)
    (hne : l.filterMap asNum ≠ []) :
    ajayjsHistEdges ds raw =
      extendEdges (sortAsc (l.filterMap asNum)) (listMin raw) (listMax raw) ∧
    (ajayjsHistEdges ds raw).Sorted (· ≤ ·) ∧
    (ajayjsHistEdges ds raw).headD 0 ≤ listMin raw ∧
    listMax raw ≤ (ajayjsHistEdges ds raw).getLastD 0 ∧
    chartsHistEdges ds raw = sortAsc (l.filterMap asNum) ∧
    (chartsHistEdges ds raw).Sorted (· ≤ ·) ∧
    (chartsHistEdges ds raw).Perm (l.filterMap asNum) := by
  have hex : explicitEdges ds = some (l.filterMap asNum) := by
    simp [explicitEdges, hbe, if_pos hlen]
  have h1 : ajayjsHistEdges ds raw =
      extendEdges (sortAsc (l.filterMap asNum)) (listMin raw) (listMax raw) := by
    simp [ajayjsHistEdges, hex]
  have h5 : chartsHistEdges ds raw = sortAsc (l.filterMap asNum) := by
    simp [chartsHistEdges, hex]
  have hsorted : (sortAsc (l.filterMap asNum)).Sorted (· ≤ ·) :=
    List.sorted_insertionSort _ _
  have hperm : (sortAsc (l.filterMap asNum)).Perm (l.filterMap asNum) :=
    List.perm_insertionSort _ _
  obtain ⟨e, es, hees⟩ : ∃ e es, sortAsc (l.filterMap asNum) = e :: es := by
    cases hsort : sortAsc (l.filterMap asNum) with
    | nil =>
      exfalso
      rw [hsort] at hperm
      exact hne hperm.nil_eq.symm
    | cons e es => exact ⟨e, es, rfl⟩
  obtain ⟨s1, s2, s3⟩ :=
    extendEdges_spec e es (listMin raw) (listMax raw) (hees ▸ hsorted)
  refine ⟨h1, ?_, ?_, ?_, h5, h5 ▸ hsorted, h5 ▸ hperm⟩
  · rw [h1, hees]
    exact s1
  · rw [h1, hees]
    exact s2
  · rw [h1, hees]
    exact s3

/-- Witness for C3 (amended) at the dataset of the counterexample: explicit
edges `[5, 10]`, data `[1, 6]`. -/
theorem explicit_edges_handling_witness :
    ajayjsHistEdges histDs2 (histRawValues histDs2) =
      extendEdges (sortAsc ([JVal.num 5, JVal.num 10].filterMap asNum))
        (listMin (histRawValues histDs2)) (listMax (histRawValues histDs2)) ∧
    (ajayjsHistEdges histDs2 (histRawValues histDs2)).Sorted (· ≤ ·) ∧
    (ajayjsHistEdges histDs2 (histRawValues histDs2)).headD 0 ≤
      listMin (histRawValues histDs2) ∧
    listMax (histRawValues histDs2) ≤
      (ajayjsHistEdges histDs2 (histRawValues histDs2)).getLastD 0 ∧
    chartsHistEdges histDs2 (histRawValues histDs2) =
      sortAsc ([JVal.num 5, JVal.num 10].filterMap asNum) ∧
    (chartsHistEdges histDs2 (histRawValues histDs2)).Sorted (· ≤ ·) ∧
    (chartsHistEdges histDs2 (histRawValues histDs2)).Perm
      ([JVal.num 5, JVal.num 10].filterMap asNum) :=
  explicit_edges_handling histDs2 [JVal.num 5, JVal.num 10]
    (histRawValues histDs2) rfl (by decide) (by decide)

theorem filterMap_asNum_replicate (m : Nat) (c : ℚ) :
    (List.replicate m (JVal.num c)).filterMap asNum = List.replicate m c := by
  induction m with
  | zero => rfl
  | succ p ih =>
    rw [List.replicate_succ, List.filterMap_cons]
    simp [asNum, ih, List.replicate_succ]

theorem foldl_idem_replicate (f : ℚ → ℚ → ℚ) (c : ℚ) (hf : f c c = c) :
    ∀ n : Nat, (List.replicate n c).foldl f c = c := by
  intro n
  induction n with
  | zero => rfl
  | succ m ih => rw [List.replicate_succ, List.foldl_cons, hf]; exact ih

theorem listMin_replicate (n : Nat) (c : ℚ) :
    listMin (List.replicate (n + 1) c) = c := by
  rw [List.replicate_succ]
  exact foldl_idem_replicate min c (min_self c) n

theorem listMax_replicate (n : Nat) (c : ℚ) :
    listMax (List.replicate (n + 1) c) = c := by
  rw [List.replicate_succ]
  exact foldl_idem_replicate max c (max_self c) n

theorem getLastD_replicate (c : ℚ) : ∀ (k : Nat) (d : ℚ),
    (List.replicate (k + 1) c).getLastD d = c := by
  intro k
  induction k with
  | zero => intro d; rfl
  | succ m ih => intro d; rw [List.replicate_succ, List.getLastD_cons]; exact ih c

theorem edgeLoop_zero_width (c : ℚ) (k : Nat) :
    edgeLoop c 0 (k : ℚ) = List.replicate (k + 1) c := by
  unfold edgeLoop
  rw [if_neg (not_lt.mpr (by positivity))]
  have hf : (fun i : Nat => c + (i : ℚ) * 0) = fun _ : Nat => c := by
    funext i
    ring
  rw [hf, List.map_const', List.length_range, Int.floor_natCast]
  simp

theorem binIndexAux_replicate (c : ℚ) : ∀ (m i : Nat),
    binIndexAux c (c :: c :: List.replicate m c) i = some (i + m) := by
  intro m
  induction m with
  | zero =>
    intro i
    unfold binIndexAux
    rw [if_neg, if_pos ⟨rfl, rfl⟩]
    · simp
    · rintro ⟨-, h⟩
      exact lt_irrefl c h
  | succ p ih =>
    intro i
    rw [List.replicate_succ]
    unfold binIndexAux
    rw [if_neg, if_neg]
    · rw [ih (i + 1)]
      congr 1
      omega
    · rintro ⟨h, -⟩
      exact absurd h (by simp)
    · rintro ⟨-, h⟩
      exact lt_irrefl c h

theorem binIndex_replicate (c : ℚ) (k : Nat) (hk : 1 ≤ k) :
    binIndex (List.replicate (k + 1) c) c = some (k - 1) := by
  obtain ⟨m, rfl⟩ : ∃ m, k = m + 1 := ⟨k - 1, by omega⟩
  show binIndexAux c (List.replicate (m + 1 + 1) c) 0 = some (m + 1 - 1)
  rw [List.replicate_succ, List.replicate_succ, binIndexAux_replicate c m 0]
  congr 1
  omega

theorem bumpAt_append_last (l : List Nat) (j : Nat) :
    bumpAt (l ++ [j]) l.length = l ++ [j + 1] := by
  unfold bumpAt
  have hget : (l ++ [j]).getD l.length 0 = j := by
    rw [List.getD_eq_getElem?_getD, List.getElem?_append_right (le_refl l.length)]
    simp
  rw [hget, List.set_append_right _ _ (le_refl l.length)]
  simp

theorem countStep_single (c : ℚ) (k : Nat) (hk : 1 ≤ k) (j : Nat) :
    countStep (List.replicate (k + 1) c) (List.replicate (k - 1) 0 ++ [j]) c =
      List.replicate (k - 1) 0 ++ [j + 1] := by
  unfold countStep
  rw [binIndex_replicate c k hk]
  have h := bumpAt_append_last (List.replicate (k - 1) 0) j
  rw [List.length_replicate] at h
  exact h

theorem fold_bump_last (c : ℚ) (k : Nat) (hk : 1 ≤ k) :
    ∀ (n j : Nat),
      (List.replicate n c).foldl (countStep (List.replicate (k + 1) c))
        (List.replicate (k - 1) 0 ++ [j]) =
      List.replicate (k - 1) 0 ++ [j + n] := by
  intro n
  induction n with
  | zero => intro j; simp
  | succ m ih =>
    intro j
    nth_rewrite 2 [List.replicate_succ]
    rw [List.foldl_cons, countStep_single c k hk j, ih (j + 1)]
    congr 2
    omega

/-- C10: a non-empty single-valued input (`n + 1` copies of `c`, so
`min == max`) with no explicit bin edges and bin count `k ≥ 1` still yields a
value in both versions: `k` zero-width bins whose `k + 1` edges all equal
`c`, every input value counted in the final bin, all other counts zero, and
the total count equal to the number of input values. -/
theorem histogram_single_value (c : ℚ) (n k : Nat) (ds : DS)
    (hd : ds.data = some (JVal.arr (List.replicate (n + 1) (JVal.num c))))
    (hbe : ds.binEdges = none) (hb : ds.bins = some (JVal.num (k : ℚ)))
    (hk : 1 ≤ k) :
    histRawValues ds = List.replicate (n + 1) c ∧
    ajayjsHistEdges ds (histRawValues ds) = List.replicate (k + 1) c ∧
    chartsHistEdges ds (histRawValues ds) = List.replicate (k + 1) c ∧
    countBins (List.replicate (k + 1) c) (histRawValues ds) =
      List.replicate (k - 1) 0 ++ [n + 1] ∧
    (countBins (List.replicate (k + 1) c) (histRawValues ds)).sum = n + 1 := by
  have hraw : histRawValues ds = List.replicate (n + 1) c := by
    simp [histRawValues, hd, filterMap_asNum_replicate]
  have hkq : (0 : ℚ) < (k : ℚ) := by
    have : (0 : Nat) < k := by omega
    exact_mod_cast this
  have hbc : ajayjsBinCount ds = (k : ℚ) := by
    simp [ajayjsBinCount, hb, hkq]
  have hbc2 : chartsBinCount ds = (k : ℚ) := by
    simp [chartsBinCount, hb]
  have hmin : listMin (histRawValues ds) = c := by
    rw [hraw]; exact listMin_replicate n c
  have hmax : listMax (histRawValues ds) = c := by
    rw [hraw]; exact listMax_replicate n c
  have hexp : explicitEdges ds = none := by
    simp [explicitEdges, hbe]
  have hzero : ((c : ℚ) - c) / (k : ℚ) = 0 := by simp
  have ha : ajayjsHistEdges ds (histRawValues ds) = List.replicate (k + 1) c := by
    simp only [ajayjsHistEdges, hexp]
    rw [hmin, hmax, hbc, hzero, edgeLoop_zero_width c k, if_neg]
    rw [getLastD_replicate c k 0]
    exact lt_irrefl c
  have hc : chartsHistEdges ds (histRawValues ds) = List.replicate (k + 1) c := by
    simp only [chartsHistEdges, hexp]
    rw [hmin, hmax, hbc2, hzero, edgeLoop_zero_width c k]
  have hksplit : List.replicate k (0 : Nat) = List.replicate (k - 1) 0 ++ [0] := by
    obtain ⟨m, rfl⟩ : ∃ m, k = m + 1 := ⟨k - 1, by omega⟩
    rw [List.replicate_succ']
    simp
  have hcount : countBins (List.replicate (k + 1) c) (histRawValues ds) =
      List.replicate (k - 1) 0 ++ [n + 1] := by
    rw [hraw]
    unfold countBins
    rw [List.length_replicate, Nat.add_sub_cancel, hksplit,
      fold_bump_last c k hk (n + 1) 0]
    simp
  refine ⟨hraw, ha, hc, hcount, ?_⟩
  rw [hcount]
  simp

/-- Witness for C10 at three copies of the value 5 with bin count 4. -/
theorem histogram_single_value_witness :
    histRawValues histDs3 = List.replicate 3 5 ∧
    ajayjsHistEdges histDs3 (histRawValues histDs3) = List.replicate 5 5 ∧
    chartsHistEdges histDs3 (histRawValues histDs3) = List.replicate 5 5 ∧
    countBins (List.replicate 5 5) (histRawValues histDs3) =
      List.replicate 3 0 ++ [3] ∧
    (countBins (List.replicate 5 5) (histRawValues histDs3)).sum = 3 :=
  histogram_single_value 5 2 4 histDs3 rfl rfl (by simp [histDs3]) (by norm_num)

theorem beq_false_symm (a b : String) (h : (a == b) = false) : (b == a) = false := by
  rw [beq_eq_false_iff_ne] at h ⊢
  exact h.symm

theorem find?_map_upd (k : String) (v : JVal) :
    ∀ o : List (String × JVal), o.any (fun p => p.1 == k) = true →
      jGet (o.map (fun p => if p.1 == k then (k, v) else p)) k = some v := by
  intro o
  induction o with
  | nil => intro h; simp at h
  | cons p ps ih =>
    intro h
    rw [List.map_cons]
    by_cases hb : (p.1 == k) = true
    · rw [if_pos hb]
      simp [jGet]
    · rw [if_neg hb]
      have hps : ps.any (fun p => p.1 == k) = true := by
        rw [List.any_cons] at h
        simpa [hb] using h
      have hbf : (p.1 == k) = false := by simpa using hb
      simpa [jGet, List.find?_cons, hbf] using ih hps

theorem jGet_append_single (o : List (String × JVal)) (k : String) (v : JVal)
    (h : o.any (fun p => p.1 == k) = false) :
    jGet (o ++ [(k, v)]) k = some v := by
  induction o with
  | nil => simp [jGet]
  | cons p ps ih =>
    rw [List.any_cons, Bool.or_eq_false_iff] at h
    rw [List.cons_append]
    simpa [jGet, List.find?_cons, h.1] using ih h.2

theorem jGet_objUpd_self (o : List (String × JVal)) (k : String) (v : JVal) :
    jGet (objUpd o k v) k = some v := by
  unfold objUpd
  by_cases ha : o.any (fun p => p.1 == k) = true
  · rw [if_pos ha]
    exact find?_map_upd k v o ha
  · rw [if_neg ha]
    exact jGet_append_single o k v (by rwa [Bool.not_eq_true] at ha)

theorem jGet_map_upd_other (k k' : String) (v : JVal) (h : (k' == k) = false) :
    ∀ o : List (String × JVal),
      jGet (o.map (fun p => if p.1 == k then (k, v) else p)) k' = jGet o k' := by
  have hkk' : (k == k') = false := beq_false_symm k' k h
  intro o
  induction o with
  | nil => rfl
  | cons p ps ih =>
    rw [List.map_cons]
    by_cases hb : (p.1 == k) = true
    · rw [if_pos hb]
      have hp : p.1 = k := eq_of_beq hb
      have hpk' : (p.1 == k') = false := by rw [hp]; exact hkk'
      simpa [jGet, List.find?_cons, hkk', hpk'] using ih
    · rw [if_neg hb]
      by_cases hc : (p.1 == k') = true
      · simp [jGet, List.find?_cons, hc]
      · have hcf : (p.1 == k') = false := by simpa using hc
        simpa [jGet, List.find?_cons, hcf] using ih

theorem jGet_append_single_other (o : List (String × JVal)) (k k' : String)
    (v : JVal) (h : (k' == k) = false) :
    jGet (o ++ [(k, v)]) k' = jGet o k' := by
  have hkk' : (k == k') = false := beq_false_symm k' k h
  unfold jGet
  rw [List.find?_append]
  simp [List.find?_cons, hkk']

theorem jGet_objUpd_other (o : List (String × JVal)) (k k' : String) (v : JVal)
    (h : (k' == k) = false) :
    jGet (objUpd o k v) k' = jGet o k' := by
  unfold objUpd
  by_cases ha : o.any (fun p => p.1 == k) = true
  · rw [if_pos ha]
    exact jGet_map_upd_other k k' v h o
  · rw [if_neg ha]
    exact jGet_append_single_other o k k' v h

theorem jGet_objExtend (k : String) :
    ∀ (entries init : List (String × JVal)),
      jGet (objExtend init entries) k =
        match lastLookup entries k with
        | some v => some v
        | none => jGet init k := by
  intro entries
  induction entries with
  | nil =>
    intro init
    simp [objExtend, lastLookup]
  | cons p rest ih =>
    intro init
    show jGet (objExtend (objUpd init p.1 p.2) rest) k = _
    rw [ih (objUpd init p.1 p.2)]
    cases hl : lastLookup rest k with
    | some v =>
      have hll : lastLookup (p :: rest) k = some v := by
        unfold lastLookup at hl ⊢
        rw [List.reverse_cons, List.find?_append]
        cases hf : List.find? (fun q => q.1 == k) rest.reverse with
        | none => rw [hf] at hl; simp at hl
        | some q =>
          rw [hf] at hl
          simp only [Option.map_some'] at hl
          simp [Option.or, hf, hl]
      rw [hll]
    | none =>
      have hrev : List.find? (fun q => q.1 == k) rest.reverse = none := by
        unfold lastLookup at hl
        cases hf : List.find? (fun q => q.1 == k) rest.reverse with
        | none => rfl
        | some q => rw [hf] at hl; simp at hl
      by_cases hp : (p.1 == k) = true
      · have hk : p.1 = k := eq_of_beq hp
        have hll : lastLookup (p :: rest) k = some p.2 := by
          unfold lastLookup
          rw [List.reverse_cons, List.find?_append, hrev]
          simp [List.find?_cons, hp]
        rw [hll, hk, jGet_objUpd_self]
      · have hpf : (p.1 == k) = false := by simpa using hp
        have hll : lastLookup (p :: rest) k = none := by
          unfold lastLookup
          rw [List.reverse_cons, List.find?_append, hrev]
          simp [List.find?_cons, hpf]
        rw [hll, jGet_objUpd_other init p.1 k p.2 (beq_false_symm _ _ hpf)]

theorem jGet_objExtend_last (init entries : List (String × JVal)) (k : String)
    (v : JVal) (h : lastLookup entries k = some v) :
    jGet (objExtend init entries) k = some v := by
  rw [jGet_objExtend, h]

theorem jGet_objExtend_missing (init entries : List (String × JVal))
    (k : String) (h : lastLookup entries k = none) :
    jGet (objExtend init entries) k = jGet init k := by
  rw [jGet_objExtend, h]

/-- C4 counterexample: under `src/AJAYJS`, an `area` dataset that explicitly
sets `fill: false` is normalized with `fill = false` — the forced override
the claim states does not happen in that file, whose `area` branch writes
`typeof ds.fill === 'boolean' ? ds.fill : true`. -/
theorem ajayjs_area_fill_false_counterexample :
    jGet (ajayjsNormalizeDataset "dark" { fill := some (JVal.bool false) }
      "#ff4d4d" "area") "fill" = some (JVal.bool false) ∧
    jGet (ajayjsNormalizeDataset "dark" { fill := some (JVal.bool false) }
      "#ff4d4d" "area") "fill" ≠ some (JVal.bool true) := by
  have h1 : jGet (ajayjsNormalizeDataset "dark" { fill := some (JVal.bool false) }
      "#ff4d4d" "area") "fill" = some (JVal.bool false) := rfl
  refine ⟨h1, ?_⟩
  rw [h1]
  simp

/-- C4 (amended): under the `src/charts` render path, an `area` dataset is
rendered with `fill = true` even when the caller set `fill: false` (as long
as the passthrough bag carries no `fill` of its own), because
`_buildAndRender` mutates `ds.fill = true` before normalizing; under
`src/AJAYJS`, the normalized `fill` is the caller's `fill` whenever that is a
boolean and only defaults to `true` otherwise. -/
theorem area_fill_resolution (θ : String) (ds : DS) (c : String)
    (hp : lastLookup ds.additionalProps "fill" = none) :
    jGet (chartsRenderDataset ds c "area") "fill" = some (JVal.bool true) ∧
    jGet (ajayjsNormalizeDataset θ ds c "area") "fill" =
      some (boolOr ds.fill true) := by
  constructor
  · show jGet (chartsBase { ds with fill := some (JVal.bool true) } c) "fill" = _
    unfold chartsBase
    rw [jGet_objExtend_missing _ _ _ hp]
    rfl
  · show jGet (objUpd (objUpd (objUpd (ajayjsBase ds c) "pointRadius"
      (numOr ds.pointRadius 4)) "fill" (boolOr ds.fill true)) "tension"
      (numOr ds.tension (2 / 5))) "fill" = some (boolOr ds.fill true)
    rw [jGet_objUpd_other _ _ _ _ (by decide), jGet_objUpd_self]

/-- Witness for C4 (amended) at a dataset with an explicit `fill: false` and
an empty passthrough bag. -/
theorem area_fill_resolution_witness :
    jGet (chartsRenderDataset { fill := some (JVal.bool false) } "#ff4d4d"
      "area") "fill" = some (JVal.bool true) ∧
    jGet (ajayjsNormalizeDataset "dark" { fill := some (JVal.bool false) }
      "#ff4d4d" "area") "fill" = some (boolOr (some (JVal.bool false)) true) :=
  area_fill_resolution "dark" { fill := some (JVal.bool false) } "#ff4d4d" rfl

theorem jGet_chartsNormalize_passthrough (ds : DS) (c ty k : String) (v : JVal)
    (hk : lastLookup ds.additionalProps k = some v) :
    jGet (chartsNormalizeDataset ds c ty) k = some v := by
  simp only [chartsNormalizeDataset]
  split_ifs <;> exact jGet_objExtend_last _ _ _ _ hk

theorem jGet_ajayjsNormalize_passthrough (θ : String) (ds : DS)
    (c ty k : String) (v : JVal)
    (hk : lastLookup ds.additionalProps k = some v)
    (hhist : ty = "histogram" → histRawValues ds ≠ [])
    (h1 : ty ≠ "line") (h2 : ty ≠ "scatter") (h3 : ty ≠ "radar")
    (h4 : ty ≠ "area") (h5 : ty ≠ "pie") (h6 : ty ≠ "doughnut")
    (h7 : ty ≠ "polararea") (h8 : ty ≠ "bubble") :
    jGet (ajayjsNormalizeDataset θ ds c ty) k = some v := by
  simp only [ajayjsNormalizeDataset]
  rw [if_neg (by rintro (h | h | h) <;> [exact h1 h; exact h2 h; exact h3 h]),
    if_neg h4,
    if_neg (by rintro (h | h | h) <;> [exact h5 h; exact h6 h; exact h7 h]),
    if_neg h8]
  by_cases c5 : ty = "histogram"
  · rw [if_pos c5]
    unfold ajayjsHistDataset
    rw [if_neg (fun h0 => (hhist c5) (List.length_eq_zero.mp h0))]
    exact jGet_objExtend_last _ _ _ _ hk
  · rw [if_neg c5]
    by_cases c6 : ty = "candlestick" ∨ ty = "ohlc"
    · rw [if_pos c6]
      exact jGet_objExtend_last _ _ _ _ hk
    · rw [if_neg c6]
      by_cases c7 : ty = "heatmap"
      · rw [if_pos c7]
        exact jGet_objExtend_last _ _ _ _ hk
      · rw [if_neg c7]
        by_cases c8 : ty = "treemap"
        · rw [if_pos c8]
          exact jGet_objExtend_last _ _ _ _ hk
        · rw [if_neg c8]
          by_cases c9 : ty = "boxplot"
          · rw [if_pos c9]
            exact jGet_objExtend_last _ _ _ _ hk
          · rw [if_neg c9]
            by_cases c10 : ty = "gauge"
            · rw [if_pos c10]
              exact jGet_objExtend_last _ _ _ _ hk
            · rw [if_neg c10]
              unfold ajayjsBase
              exact jGet_objExtend_last _ _ _ _ hk

/-- C5 counterexample: the passthrough bag does not always win.  Under
`src/AJAYJS`, a `line` dataset whose bag carries `fill: true` is normalized
with `fill = false` — the type-specific assignments run after the splice —
and in both files a histogram dataset with no finite numeric data returns
early without splicing the bag at all. -/
theorem passthrough_loses_counterexample :
    jGet (ajayjsNormalizeDataset "dark"
      { additionalProps := [("fill", JVal.bool true)] } "#ff4d4d" "line")
      "fill" = some (JVal.bool false) ∧
    jGet (ajayjsNormalizeDataset "dark"
      { additionalProps := [("fill", JVal.bool true)] } "#ff4d4d" "line")
      "fill" ≠ some (JVal.bool true) ∧
    jGet (ajayjsHistDataset { additionalProps := [("custom", JVal.num 7)] }
      "#ff4d4d") "custom" = none ∧
    jGet (chartsHistDataset { additionalProps := [("custom", JVal.num 7)] }
      "#ff4d4d") "custom" = none := by
  have h1 : jGet (ajayjsNormalizeDataset "dark"
      { additionalProps := [("fill", JVal.bool true)] } "#ff4d4d" "line")
      "fill" = some (JVal.bool false) := rfl
  refine ⟨h1, ?_, rfl, rfl⟩
  rw [h1]
  simp

/-- C5 (amended): the passthrough bag is spliced in last — and so wins over
every computed default — throughout the `src/charts` normalizer and in the
object-returning branches of the `src/AJAYJS` normalizer, except that a
histogram dataset with no finite numeric value returns early without the bag
in both files; in the `src/AJAYJS` line/scatter/radar, area,
pie/doughnut/polarArea and bubble branches the type-specific fields
(pointRadius/fill/tension, backgroundColor/hoverOffset/borderWidth, radius)
are assigned after the splice and so beat the bag, while every other key of
the bag still wins there. -/
theorem passthrough_splice (θ : String) (ds : DS) (c ty k : String) (v : JVal)
    (hk : lastLookup ds.additionalProps k = some v) :
    ((ty = "histogram" → histRawValues ds ≠ []) →
      jGet (chartsRenderDataset ds c ty) k = some v) ∧
    ((ty = "histogram" → histRawValues ds ≠ []) →
      ty ≠ "line" → ty ≠ "scatter" → ty ≠ "radar" → ty ≠ "area" →
      ty ≠ "pie" → ty ≠ "doughnut" → ty ≠ "polararea" → ty ≠ "bubble" →
      jGet (ajayjsNormalizeDataset θ ds c ty) k = some v) ∧
    ((ty = "line" ∨ ty = "scatter" ∨ ty = "radar" ∨ ty = "area") →
      k ≠ "pointRadius" → k ≠ "fill" → k ≠ "tension" →
      jGet (ajayjsNormalizeDataset θ ds c ty) k = some v) ∧
    ((ty = "pie" ∨ ty = "doughnut" ∨ ty = "polararea") →
      k ≠ "backgroundColor" → k ≠ "hoverOffset" → k ≠ "borderWidth" →
      jGet (ajayjsNormalizeDataset θ ds c ty) k = some v) ∧
    (ty = "bubble" → k ≠ "radius" →
      jGet (ajayjsNormalizeDataset θ ds c ty) k = some v) := by
  refine ⟨?_, ?_, ?_, ?_, ?_⟩
  · intro hhist
    unfold chartsRenderDataset
    split_ifs with hc1 hc2 hc3
    · unfold chartsHistDataset
      rw [if_neg (fun h0 => (hhist hc1) (List.length_eq_zero.mp h0))]
      exact jGet_objExtend_last _ _ _ _ hk
    · exact jGet_chartsNormalize_passthrough _ _ _ _ _ hk
    · exact jGet_chartsNormalize_passthrough _ _ _ _ _ hk
    · exact jGet_chartsNormalize_passthrough _ _ _ _ _ hk
  · intro hhist h1 h2 h3 h4 h5 h6 h7 h8
    exact jGet_ajayjsNormalize_passthrough θ ds c ty k v hk hhist
      h1 h2 h3 h4 h5 h6 h7 h8
  · intro hty hk1 hk2 hk3
    have hgen : ∀ x y z : JVal,
        jGet (objUpd (objUpd (objUpd (ajayjsBase ds c) "pointRadius" x)
          "fill" y) "tension" z) k = some v := by
      intro x y z
      rw [jGet_objUpd_other _ _ _ _ (beq_eq_false_iff_ne.mpr hk3),
        jGet_objUpd_other _ _ _ _ (beq_eq_false_iff_ne.mpr hk2),
        jGet_objUpd_other _ _ _ _ (beq_eq_false_iff_ne.mpr hk1)]
      unfold ajayjsBase
      exact jGet_objExtend_last _ _ _ _ hk
    rcases hty with h | h | h | h <;> subst h <;>
      · simp +decide only [ajayjsNormalizeDataset]
        exact hgen _ _ _
  · intro hty hk1 hk2 hk3
    have hgen : ∀ x y z : JVal,
        jGet (objUpd (objUpd (objUpd (ajayjsBase ds c) "backgroundColor" x)
          "hoverOffset" y) "borderWidth" z) k = some v := by
      intro x y z
      rw [jGet_objUpd_other _ _ _ _ (beq_eq_false_iff_ne.mpr hk3),
        jGet_objUpd_other _ _ _ _ (beq_eq_false_iff_ne.mpr hk2),
        jGet_objUpd_other _ _ _ _ (beq_eq_false_iff_ne.mpr hk1)]
      unfold ajayjsBase
      exact jGet_objExtend_last _ _ _ _ hk
    rcases hty with h | h | h <;> subst h <;>
      · simp +decide only [ajayjsNormalizeDataset]
        exact hgen _ _ _
  · intro hty hk1
    subst hty
    have hgen : ∀ x : JVal,
        jGet (objUpd (ajayjsBase ds c) "radius" x) k = some v := by
      intro x
      rw [jGet_objUpd_other _ _ _ _ (beq_eq_false_iff_ne.mpr hk1)]
      unfold ajayjsBase
      exact jGet_objExtend_last _ _ _ _ hk
    simp +decide only [ajayjsNormalizeDataset]
    exact hgen _

/-- Witness for C5 (amended): a `bar` dataset whose bag carries a custom key
keeps the bag's value in both normalizers. -/
theorem passthrough_splice_witness :
    jGet (chartsRenderDataset { additionalProps := [("custom", JVal.num 7)] }
      "#ff4d4d" "bar") "custom" = some (JVal.num 7) ∧
    jGet (ajayjsNormalizeDataset "dark"
      { additionalProps := [("custom", JVal.num 7)] } "#ff4d4d" "bar")
      "custom" = some (JVal.num 7) := by
  have h := passthrough_splice "dark"
    { additionalProps := [("custom", JVal.num 7)] } "#ff4d4d" "bar" "custom"
    (JVal.num 7) rfl
  exact ⟨h.1 (fun hh => absurd hh (by decide)),
    h.2.1 (fun hh => absurd hh (by decide)) (by decide) (by decide) (by decide)
      (by decide) (by decide) (by decide) (by decide) (by decide)⟩
